import Mathlib

/-!
Verification development for the EMILIA project: a shallow embedding of the
conversational orchestration core (router, emotional-state tracker, bounded
memory buffer, content recommender, model-failure fallback) and of the forum
message CRUD layer (createMessage, getMessages, handleReply), together with
theorems settling the specified behavioural properties.
-/

namespace Emilia

/-- Emotional state of a session: valence and arousal, modelled over ℚ.
Mirrors the `emotional_state` dict `{"valence": 0, "arousal": 0}` of
src/AI/README.md. -/
structure EmotionalState where
  valence : ℚ
  arousal : ℚ
deriving Repr, DecidableEq

/-- The neutral emotional state (0, 0), the initial state in
src/AI/README.md (`"emotional_state": {"valence": 0, "arousal": 0}`). -/
def EmotionalState.neutral : EmotionalState := ⟨0, 0⟩

/-- A state is in range when valence ∈ [-1, 1] and arousal ∈ [0, 1]. -/
def ValidState (s : EmotionalState) : Prop :=
  -1 ≤ s.valence ∧ s.valence ≤ 1 ∧ 0 ≤ s.arousal ∧ s.arousal ≤ 1

/-- Clamp a rational into the interval [lo, hi]. -/
def clamp (lo hi x : ℚ) : ℚ := max lo (min hi x)

/-- Modelled from the spec: `update_emotional_state` is referenced by
`emotional_support_agent` in src/AI/README.md but its implementation is not in
the repository; per spec §4.4 `update` adds the delta to each axis and clamps
valence into [-1, 1] and arousal into [0, 1]. -/
def update (s d : EmotionalState) : EmotionalState :=
  ⟨clamp (-1) 1 (s.valence + d.valence), clamp 0 1 (s.arousal + d.arousal)⟩

/-- Modelled from the spec: the decay operation is not implemented in the
repository; per spec §4.4 `decay` multiplies the current deviation of each
axis from neutral (0, 0) by a fixed factor `f < 1`. -/
def decay (f : ℚ) (s : EmotionalState) : EmotionalState :=
  ⟨f * s.valence, f * s.arousal⟩

/-- One per-turn mutation of the emotional state: either an agent delta
(`upd`) applied through `update`, or a decay-only turn (`dec`). -/
inductive TurnStep where
  | upd (d : EmotionalState)
  | dec
deriving Repr, DecidableEq

/-- Run a sequence of per-turn mutations over the emotional state. -/
def runSteps (f : ℚ) (s : EmotionalState) : List TurnStep → EmotionalState
  | [] => s
  | TurnStep.upd d :: rest => runSteps f (update s d) rest
  | TurnStep.dec :: rest => runSteps f (decay f s) rest

theorem clamp_mem (lo hi x : ℚ) (h : lo ≤ hi) :
    lo ≤ clamp lo hi x ∧ clamp lo hi x ≤ hi := by
  constructor
  · exact le_max_left _ _
  · exact max_le h (min_le_left _ _)

theorem update_valid (s d : EmotionalState) : ValidState (update s d) := by
  have h1 := clamp_mem (-1) 1 (s.valence + d.valence) (by norm_num)
  have h2 := clamp_mem 0 1 (s.arousal + d.arousal) (by norm_num)
  exact ⟨h1.1, h1.2, h2.1, h2.2⟩

theorem decay_valid (f : ℚ) (hf0 : 0 ≤ f) (hf1 : f < 1)
    (s : EmotionalState) (hs : ValidState s) : ValidState (decay f s) := by
  obtain ⟨hv1, hv2, ha1, ha2⟩ := hs
  refine ⟨?_, ?_, ?_, ?_⟩ <;> simp only [decay] <;> nlinarith

/- ---------------------------------------------------------------------- -/
/- Router (src/AI/README.md, `route_agents`)                               -/
/- ---------------------------------------------------------------------- -/

/-- The closed enumeration of agent labels returned by the router. -/
inductive AgentLabel where
  | emotional_support
  | academic_planning
  | crisis_management
  | general_chat
deriving Repr, DecidableEq

/-- Embedding of `route_agents` from src/AI/README.md (lines 403-415).
The three need-predicates are pluggable (they are not defined in the
repository), so they are parameters.  The source checks
`needs_emotional_support` first, then `needs_academic_planning`, then
`needs_crisis_management`, and defaults to `general_chat`. -/
def route_agents
    (needs_emotional_support : String → EmotionalState → Bool)
    (needs_academic_planning : String → Bool)
    (needs_crisis_management : String → EmotionalState → Bool)
    (last_message : String) (emotional_state : EmotionalState) : AgentLabel :=
  if needs_emotional_support last_message emotional_state then
    AgentLabel.emotional_support
  else if needs_academic_planning last_message then
    AgentLabel.academic_planning
  else if needs_crisis_management last_message emotional_state then
    AgentLabel.crisis_management
  else
    AgentLabel.general_chat

/-- Formalisation of the spec wording for the confidence tie-break: the agent
whose predicate fired with the higher confidence, `emotional_support` on exact
ties.  Written from the spec, for comparison with `route_agents`. -/
def higher_confidence_choice (confAcademic confEmotional : ℚ) : AgentLabel :=
  if confEmotional < confAcademic then AgentLabel.academic_planning
  else AgentLabel.emotional_support

/- ---------------------------------------------------------------------- -/
/- Memory buffer (src/AI/README.md, `EmiliaMemoryManager`)                 -/
/- ---------------------------------------------------------------------- -/

/-- A conversation turn (sequence number and text). -/
structure Turn where
  seq : Nat
  text : String
deriving Repr, DecidableEq

/-- The short-term memory of a session.  `short_term` mirrors the
`deque(maxlen=...)` of `EmiliaMemoryManager` in src/AI/README.md, with the
hard-coded `10` generalised to the capacity `maxlen` fixed at creation.
Modelled from the spec: the rolling summary is not implemented in the
repository; per spec §4.3 every evicted turn is folded into it before
eviction, so here `summary` is the ordered aggregate of evicted turns. -/
structure MemoryBuffer where
  maxlen : Nat
  short_term : List Turn
  summary : List Turn
deriving Repr, DecidableEq

/-- A fresh memory buffer of capacity `n`, as at session creation. -/
def MemoryBuffer.new (n : Nat) : MemoryBuffer := ⟨n, [], []⟩

/-- Append one turn: the deque semantics of `self.short_term.append(...)` on a
`deque(maxlen=N)` — when full, the oldest entry is evicted; the evicted entry
is folded into the rolling summary (spec §4.3). -/
def MemoryBuffer.append (m : MemoryBuffer) (t : Turn) : MemoryBuffer :=
  let b := m.short_term ++ [t]
  if m.maxlen < b.length then
    { m with short_term := b.drop (b.length - m.maxlen),
             summary := m.summary ++ b.take (b.length - m.maxlen) }
  else
    { m with short_term := b }

/-- Append a whole sequence of turns in order. -/
def appendAll (m : MemoryBuffer) : List Turn → MemoryBuffer
  | [] => m
  | t :: ts => appendAll (m.append t) ts

theorem append_maxlen (m : MemoryBuffer) (t : Turn) :
    (m.append t).maxlen = m.maxlen := by
  simp only [MemoryBuffer.append]
  split <;> rfl

theorem append_length_le (m : MemoryBuffer) (t : Turn) :
    (m.append t).short_term.length ≤ m.maxlen ∨
    (m.append t).short_term.length ≤ m.short_term.length := by
  simp only [MemoryBuffer.append]
  split
  · left
    rename_i h
    simp only [List.length_drop]
    omega
  · rename_i h
    simp only [not_lt, List.length_append, List.length_cons] at h
    left
    simpa using h

theorem appendAll_maxlen (m : MemoryBuffer) (ts : List Turn) :
    (appendAll m ts).maxlen = m.maxlen := by
  induction ts generalizing m with
  | nil => rfl
  | cons t ts ih => simpa [appendAll, append_maxlen] using ih (m.append t)

theorem appendAll_length_le (m : MemoryBuffer) (ts : List Turn)
    (h : m.short_term.length ≤ m.maxlen) :
    (appendAll m ts).short_term.length ≤ m.maxlen := by
  induction ts generalizing m with
  | nil => exact h
  | cons t ts ih =>
      have hstep : (m.append t).short_term.length ≤ m.maxlen := by
        rcases append_length_le m t with h1 | h1
        · exact h1
        · exact le_trans h1 h
      have := ih (m.append t) (by rw [append_maxlen]; exact hstep)
      simpa [appendAll, append_maxlen] using this

/- ---------------------------------------------------------------------- -/
/- Model capability with bounded retries and fallbacks                     -/
/- ---------------------------------------------------------------------- -/

/-- Modelled from the spec: the external model capability and the Executor
fallback are not implemented in the repository.  A bounded retry sequence is
the list of its attempt outcomes (`some text` on success, `none` on
timeout/unavailability); the call resolves to the first success, if any. -/
def run_model_with_retries (attempts : List (Option String)) : Option String :=
  attempts.findSome? id

/-- Modelled from the spec: the canned `general_chat` fallback reply. -/
def general_chat_fallback : String :=
  "Lo siento, ahora mismo no puedo responder. Intentemos de nuevo en un momento."

/-- Modelled from the spec: the static crisis-safety escalation reply. -/
def crisis_safety_fallback : String :=
  "Detectamos que puedes estar en crisis. Por favor contacta de inmediato a la linea de emergencia o a un profesional de salud mental."

/-- Modelled from the spec (§4.1, §7): the reply of a turn given whether the
crisis route was flagged and the bounded-retry outcomes of the model call.
On total failure a crisis-flagged turn gets the crisis-safety fallback and a
non-crisis turn gets the `general_chat` fallback. -/
def handle_turn_reply (crisis_flagged : Bool) (attempts : List (Option String)) :
    String :=
  match run_model_with_retries attempts with
  | some text => text
  | none => if crisis_flagged then crisis_safety_fallback else general_chat_fallback

/- ---------------------------------------------------------------------- -/
/- Content recommender                                                     -/
/- ---------------------------------------------------------------------- -/

/-- Content categories (spec §3, ContentItem). -/
inductive Category where
  | mindfulness
  | academic
  | motivation
  | crisis
deriving Repr, DecidableEq

/-- A content item: id, category, and the valence/arousal trigger ranges.
Modelled from the spec: the content database schema behind
`ContentRecommender.__init__` is not in the repository. -/
structure ContentItem where
  id : Nat
  category : Category
  valence_lo : ℚ
  valence_hi : ℚ
  arousal_lo : ℚ
  arousal_hi : ℚ
deriving Repr, DecidableEq

/-- Midpoint of the valence trigger range. -/
def ContentItem.midValence (it : ContentItem) : ℚ := (it.valence_lo + it.valence_hi) / 2

/-- Midpoint of the arousal trigger range. -/
def ContentItem.midArousal (it : ContentItem) : ℚ := (it.arousal_lo + it.arousal_hi) / 2

/-- Modelled from the spec (§4.5): similarity between the session state and
the trigger-range midpoint, combined with a context-match bonus. -/
def match_score (es : EmotionalState) (need : Option Category) (it : ContentItem) : ℚ :=
  (if need = some it.category then 1 else 0)
    - |es.valence - it.midValence| - |es.arousal - it.midArousal|

/-- The deterministic recommendation order: higher score first, ties broken
by item id ascending (spec §4.5). -/
def rec_le (es : EmotionalState) (need : Option Category) (a b : ContentItem) : Bool :=
  decide (match_score es need b < match_score es need a ∨
    (match_score es need a = match_score es need b ∧ a.id ≤ b.id))

/-- Modelled from the spec (§4.5): `ContentRecommender.recommend` — the
`content_db.query` internals are not in the repository (src/AI/README.md
lines 471-486 only fix the limit).  Keep the items clearing the minimum score
whose id is not excluded, order them by score (ties by id ascending), and
return at most `K`. -/
def recommend (K : Nat) (min_score : ℚ) (catalog : List ContentItem)
    (es : EmotionalState) (need : Option Category) (excluded : List Nat) :
    List ContentItem :=
  ((catalog.filter (fun it =>
      decide (it.id ∉ excluded ∧ min_score ≤ match_score es need it))).mergeSort
    (rec_le es need)).take K

/- ---------------------------------------------------------------------- -/
/- Forum message controller (src/unnamed/part_002, messagesController)     -/
/- ---------------------------------------------------------------------- -/

/-- A persisted forum message row (Prisma model `Message`): id, text,
author id, optional parent id. -/
structure MessageRecord where
  id : Int
  message : String
  userId : Int
  parentId : Option Int
deriving Repr, DecidableEq

/-- The request body of POST /api/messages: each field may be absent. -/
structure CreateBody where
  message : Option String
  userId : Option Int
  parentId : Option Int
deriving Repr, DecidableEq

/-- JavaScript truthiness of an optional string field: absent, and the empty
string, are falsy. -/
def truthyString : Option String → Bool
  | none => false
  | some s => !(s == "")

/-- JavaScript truthiness of an optional numeric field: absent, and 0, are
falsy. -/
def truthyInt : Option Int → Bool
  | none => false
  | some n => !(n == 0)

/-- The HTTP response of `createMessage`. -/
inductive CreateResponse where
  | created (status : Nat) (record : MessageRecord)
  | err (status : Nat) (errorText : String)
deriving Repr, DecidableEq

/-- Embedding of `createMessage` (src/unnamed/part_002, lines 20-41): when
`!message || !userId` it answers 400 with an error body and writes nothing;
otherwise it inserts one row whose `parentId` is `parentId || null` and
answers 201 with the new row.  The store is the list of rows; `nextId` is the
autoincrement id the insert would receive. -/
def createMessage (store : List MessageRecord) (nextId : Int) (body : CreateBody) :
    List MessageRecord × CreateResponse :=
  if !truthyString body.message || !truthyInt body.userId then
    (store, CreateResponse.err 400 "El mensaje y el userId son obligatorios")
  else
    let newRow : MessageRecord :=
      { id := nextId
        message := body.message.getD ""
        userId := body.userId.getD 0
        parentId := if truthyInt body.parentId then body.parentId else none }
    (store ++ [newRow], CreateResponse.created 201 newRow)

/-- A first-level reply together with its own (second-level) replies, as
produced by the nested `include` of `getMessages`. -/
structure ReplyNode where
  record : MessageRecord
  replies : List MessageRecord
deriving Repr, DecidableEq

/-- A thread root together with two levels of nested replies. -/
structure ThreadNode where
  record : MessageRecord
  replies : List ReplyNode
deriving Repr, DecidableEq

/-- The rows whose `parentId` points at `pid` (the Prisma child relation). -/
def childrenOf (store : List MessageRecord) (pid : Int) : List MessageRecord :=
  store.filter (fun m => m.parentId == some pid)

/-- Embedding of `getMessages` (src/unnamed/part_002, lines 7-17):
`findMany({ where: { parentId: null }, include: { replies: { include:
{ replies: true } } } })` — the thread roots, each carrying its replies and
their replies. -/
def getMessages (store : List MessageRecord) : List ThreadNode :=
  (store.filter (fun m => m.parentId == none)).map (fun root =>
    ⟨root, (childrenOf store root.id).map (fun r => ⟨r, childrenOf store r.id⟩)⟩)

/- ---------------------------------------------------------------------- -/
/- Forum Post component (src/Frontend/components/Post/Post.jsx)            -/
/- ---------------------------------------------------------------------- -/

/-- The whitespace characters stripped by JavaScript `String.prototype.trim`
(ASCII whitespace plus the common Unicode space characters). -/
def jsWhitespaceChars : List Char :=
  [' ', '\t', '\n', '\r', '\x0b', '\x0c', '\u000B', '\u00A0', '\u2028', '\u2029', '\uFEFF']

/-- Whether a character is JavaScript whitespace. -/
def isJsWhitespace (c : Char) : Bool := jsWhitespaceChars.contains c

/-- JavaScript `String.prototype.trim`: strip leading and trailing
whitespace. -/
def jsTrim (s : String) : String :=
  ⟨((s.data.dropWhile isJsWhitespace).reverse.dropWhile isJsWhitespace).reverse⟩

/-- The component state of `Post`: the `reply` text field. -/
structure PostComponentState where
  reply : String
deriving Repr, DecidableEq

/-- An HTTP POST issued by the component. -/
structure HttpPost where
  url : String
  message : String
  parent_id : Int
deriving Repr, DecidableEq

/-- Embedding of `handleReply` (src/Frontend/components/Post/Post.jsx,
lines 10-15): a blank reply (`reply.trim() === ""`) returns early with no
request and no state change; otherwise the component posts
`{ message: reply, parent_id: post.id }` and clears the reply field. -/
def handleReply (st : PostComponentState) (postId : Int) :
    PostComponentState × Option HttpPost :=
  if jsTrim st.reply == "" then
    (st, none)
  else
    (⟨""⟩, some ⟨"http://localhost:3001/posts", st.reply, postId⟩)

/- ---------------------------------------------------------------------- -/
/- Claim theorems                                                          -/
/- ---------------------------------------------------------------------- -/

/-- C2: for every session and every sequence of turns — agent deltas applied
through the clamping `update` or decay-only turns — the emotional state keeps
valence ∈ [-1, 1] and arousal ∈ [0, 1] after every update and every decay. -/
theorem emotional_state_in_range (f : ℚ) (s : EmotionalState) (steps : List TurnStep)
    (hf0 : 0 ≤ f) (hf1 : f < 1) (hs : ValidState s) :
    ValidState (runSteps f s steps) := by
  induction steps generalizing s with
  | nil => exact hs
  | cons st rest ih =>
      cases st with
      | upd d => exact ih (update s d) (update_valid s d)
      | dec => exact ih (decay f s) (decay_valid f hf0 hf1 s hs)

/-- Witness for C2: the crisis-delta scenario with decay factor 1/2 stays in
range. -/
theorem emotional_state_in_range_w :
    ValidState (runSteps (1/2) EmotionalState.neutral
      [TurnStep.upd ⟨9/10, 8/10⟩, TurnStep.dec, TurnStep.dec]) :=
  emotional_state_in_range (1/2) EmotionalState.neutral
    [TurnStep.upd ⟨9/10, 8/10⟩, TurnStep.dec, TurnStep.dec]
    (by norm_num) (by norm_num)
    (by refine ⟨?_, ?_, ?_, ?_⟩ <;> norm_num [EmotionalState.neutral])

/-- C6: `decay` multiplies each deviation from neutral by the fixed factor,
so on every non-neutral axis it strictly reduces the absolute value and never
flips the sign, and at the neutral state (0, 0) it is the identity. -/
theorem decay_strictly_reduces (f : ℚ) (s : EmotionalState)
    (hf0 : 0 ≤ f) (hf1 : f < 1) :
    (s.valence ≠ 0 →
      |(decay f s).valence| < |s.valence| ∧ 0 ≤ (decay f s).valence * s.valence) ∧
    (s.arousal ≠ 0 →
      |(decay f s).arousal| < |s.arousal| ∧ 0 ≤ (decay f s).arousal * s.arousal) ∧
    decay f EmotionalState.neutral = EmotionalState.neutral := by
  refine ⟨?_, ?_, ?_⟩
  · intro hv
    constructor
    · have habs : |f * s.valence| = f * |s.valence| := by
        rw [abs_mul, abs_of_nonneg hf0]
      calc |(decay f s).valence| = f * |s.valence| := habs
        _ < 1 * |s.valence| := by
            exact mul_lt_mul_of_pos_right hf1 (abs_pos.mpr hv)
        _ = |s.valence| := one_mul _
    · show 0 ≤ f * s.valence * s.valence
      calc (0:ℚ) ≤ f * (s.valence * s.valence) :=
            mul_nonneg hf0 (mul_self_nonneg _)
        _ = f * s.valence * s.valence := by ring
  · intro ha
    constructor
    · have habs : |f * s.arousal| = f * |s.arousal| := by
        rw [abs_mul, abs_of_nonneg hf0]
      calc |(decay f s).arousal| = f * |s.arousal| := habs
        _ < 1 * |s.arousal| := by
            exact mul_lt_mul_of_pos_right hf1 (abs_pos.mpr ha)
        _ = |s.arousal| := one_mul _
    · show 0 ≤ f * s.arousal * s.arousal
      calc (0:ℚ) ≤ f * (s.arousal * s.arousal) :=
            mul_nonneg hf0 (mul_self_nonneg _)
        _ = f * s.arousal * s.arousal := by ring
  · simp [decay, EmotionalState.neutral]

/-- Witness for C6: with factor 1/2, decaying the post-crisis state
(0.9, 0.8) strictly shrinks the valence axis without a sign flip. -/
theorem decay_strictly_reduces_w :
    |(decay (1/2) ⟨9/10, 8/10⟩).valence| < |((⟨9/10, 8/10⟩ : EmotionalState)).valence| ∧
      0 ≤ (decay (1/2) ⟨9/10, 8/10⟩).valence * ((⟨9/10, 8/10⟩ : EmotionalState)).valence :=
  (decay_strictly_reduces (1/2) ⟨9/10, 8/10⟩ (by norm_num) (by norm_num)).1
    (by norm_num)

/-- C1 counterexample: a turn on which the crisis predicate is true but the
emotional-support predicate also fires — `route_agents` returns
`emotional_support`, not `crisis_management`, because the source checks the
crisis predicate third, not first. -/
theorem route_crisis_override_ce :
    (fun (_ : String) (_ : EmotionalState) => true) "necesito ayuda urgente"
        EmotionalState.neutral = true ∧
    route_agents (fun _ _ => true) (fun _ => false) (fun _ _ => true)
        "necesito ayuda urgente" EmotionalState.neutral
      = AgentLabel.emotional_support ∧
    AgentLabel.emotional_support ≠ AgentLabel.crisis_management :=
  ⟨rfl, rfl, by decide⟩

/-- C1 amended: `route_agents` returns `crisis_management` on a turn where
the crisis predicate is true only when the emotional-support and
academic-need predicates are both false; the crisis predicate is evaluated
third in the chain, after them. -/
theorem route_crisis_when_others_silent
    (pES : String → EmotionalState → Bool) (pAP : String → Bool)
    (pCM : String → EmotionalState → Bool) (msg : String) (es : EmotionalState)
    (h1 : pES msg es = false) (h2 : pAP msg = false) (h3 : pCM msg es = true) :
    route_agents pES pAP pCM msg es = AgentLabel.crisis_management := by
  simp [route_agents, h1, h2, h3]

/-- Witness for the amended C1. -/
theorem route_crisis_when_others_silent_w :
    route_agents (fun _ _ => false) (fun _ => false) (fun _ _ => true)
        "necesito ayuda" EmotionalState.neutral = AgentLabel.crisis_management :=
  route_crisis_when_others_silent (fun _ _ => false) (fun _ => false)
    (fun _ _ => true) "necesito ayuda" EmotionalState.neutral rfl rfl rfl

/-- C7 counterexample: crisis predicate false, both the academic predicate
(confidence 1) and the emotional-support predicate (confidence 1/2) fire; the
spec tie-break would pick `academic_planning`, but `route_agents` returns
`emotional_support` — confidences play no role in the source. -/
theorem route_confidence_ce :
    route_agents (fun _ _ => true) (fun _ => true) (fun _ _ => false)
        "examen y tristeza" EmotionalState.neutral = AgentLabel.emotional_support ∧
    higher_confidence_choice 1 (1/2) = AgentLabel.academic_planning ∧
    AgentLabel.emotional_support ≠ AgentLabel.academic_planning :=
  ⟨rfl, by norm_num [higher_confidence_choice], by decide⟩

/-- C7 amended: with the crisis predicate false, `route_agents` returns
`emotional_support` whenever the emotional-support predicate fires (with no
regard to confidences, so also when the academic predicate fires), returns
`academic_planning` when only the academic predicate fires, and returns
`general_chat` when no predicate fires. -/
theorem route_fixed_priority
    (pES : String → EmotionalState → Bool) (pAP : String → Bool)
    (pCM : String → EmotionalState → Bool) (msg : String) (es : EmotionalState)
    (hcm : pCM msg es = false) :
    (pES msg es = true → route_agents pES pAP pCM msg es = AgentLabel.emotional_support) ∧
    (pES msg es = false → pAP msg = true →
      route_agents pES pAP pCM msg es = AgentLabel.academic_planning) ∧
    (pES msg es = false → pAP msg = false →
      route_agents pES pAP pCM msg es = AgentLabel.general_chat) := by
  refine ⟨?_, ?_, ?_⟩
  · intro h; simp [route_agents, h]
  · intro h1 h2; simp [route_agents, h1, h2]
  · intro h1 h2; simp [route_agents, h1, h2, hcm]

/-- Witness for the amended C7: both non-crisis predicates fire, the router
answers `emotional_support`. -/
theorem route_fixed_priority_w :
    route_agents (fun _ _ => true) (fun _ => true) (fun _ _ => false)
        "examen y tristeza" EmotionalState.neutral = AgentLabel.emotional_support :=
  (route_fixed_priority (fun _ _ => true) (fun _ => true) (fun _ _ => false)
    "examen y tristeza" EmotionalState.neutral rfl).1 rfl

/-- C3: for every sequence of appends the short-term buffer never exceeds the
capacity fixed at creation (and the capacity itself never changes), and in
the N = 3 scenario appending T1, T2, T3, T4 leaves exactly [T2, T3, T4] in
the buffer with T1 folded into the rolling summary. -/
theorem memory_buffer_bounded :
    (∀ (m : MemoryBuffer) (ts : List Turn), m.short_term.length ≤ m.maxlen →
      (appendAll m ts).short_term.length ≤ (appendAll m ts).maxlen ∧
      (appendAll m ts).maxlen = m.maxlen) ∧
    (appendAll (MemoryBuffer.new 3) [⟨1, "T1"⟩, ⟨2, "T2"⟩, ⟨3, "T3"⟩, ⟨4, "T4"⟩]).short_term
        = [⟨2, "T2"⟩, ⟨3, "T3"⟩, ⟨4, "T4"⟩] ∧
    (appendAll (MemoryBuffer.new 3) [⟨1, "T1"⟩, ⟨2, "T2"⟩, ⟨3, "T3"⟩, ⟨4, "T4"⟩]).summary
        = [⟨1, "T1"⟩] := by
  refine ⟨fun m ts h => ?_, rfl, rfl⟩
  rw [appendAll_maxlen]
  exact ⟨appendAll_length_le m ts h, rfl⟩

/-- Witness for C3: a capacity-2 buffer stays within bound under three
appends. -/
theorem memory_buffer_bounded_w :
    (appendAll (MemoryBuffer.new 2) [⟨1, "a"⟩, ⟨2, "b"⟩, ⟨3, "c"⟩]).short_term.length
        ≤ (appendAll (MemoryBuffer.new 2) [⟨1, "a"⟩, ⟨2, "b"⟩, ⟨3, "c"⟩]).maxlen ∧
    (appendAll (MemoryBuffer.new 2) [⟨1, "a"⟩, ⟨2, "b"⟩, ⟨3, "c"⟩]).maxlen
        = (MemoryBuffer.new 2).maxlen :=
  memory_buffer_bounded.1 (MemoryBuffer.new 2) [⟨1, "a"⟩, ⟨2, "b"⟩, ⟨3, "c"⟩]
    (by decide)

theorem run_model_none (attempts : List (Option String))
    (h : ∀ a ∈ attempts, a = none) : run_model_with_retries attempts = none := by
  simpa [run_model_with_retries, List.findSome?_eq_none_iff] using h

/-- C4: when the model capability fails on every bounded retry the turn still
completes with a reply — the canned `general_chat` fallback on a non-crisis
turn, and the distinct crisis-safety fallback on a crisis-flagged turn. -/
theorem fallback_on_total_failure (attempts : List (Option String))
    (h : ∀ a ∈ attempts, a = none) :
    handle_turn_reply false attempts = general_chat_fallback ∧
    handle_turn_reply true attempts = crisis_safety_fallback ∧
    crisis_safety_fallback ≠ general_chat_fallback := by
  have hn := run_model_none attempts h
  refine ⟨?_, ?_, ?_⟩
  · simp [handle_turn_reply, hn]
  · simp [handle_turn_reply, hn]
  · decide

/-- Witness for C4: three failed attempts yield the two fallbacks. -/
theorem fallback_on_total_failure_w :
    handle_turn_reply false [none, none, none] = general_chat_fallback ∧
    handle_turn_reply true [none, none, none] = crisis_safety_fallback ∧
    crisis_safety_fallback ≠ general_chat_fallback :=
  fallback_on_total_failure [none, none, none] (by simp)

/-- C5: `recommend` returns at most K items, never an item whose id is in the
excluded window, and orders its output by match score with ties broken by
item id ascending. -/
theorem recommend_spec (K : Nat) (min_score : ℚ) (catalog : List ContentItem)
    (es : EmotionalState) (need : Option Category) (excluded : List Nat) :
    (recommend K min_score catalog es need excluded).length ≤ K ∧
    (∀ it ∈ recommend K min_score catalog es need excluded, it.id ∉ excluded) ∧
    (recommend K min_score catalog es need excluded).Pairwise (fun a b =>
      match_score es need b < match_score es need a ∨
      (match_score es need a = match_score es need b ∧ a.id ≤ b.id)) := by
  refine ⟨List.length_take_le _ _, ?_, ?_⟩
  · intro it hit
    have hmem := List.mem_of_mem_take hit
    rw [List.mem_mergeSort, List.mem_filter] at hmem
    exact (of_decide_eq_true hmem.2).1
  · have htrans : ∀ (a b c : ContentItem),
        rec_le es need a b → rec_le es need b c → rec_le es need a c := by
      intro a b c hab hbc
      have hab := of_decide_eq_true hab
      have hbc := of_decide_eq_true hbc
      apply decide_eq_true
      rcases hab with hab | ⟨hab1, hab2⟩
      · rcases hbc with hbc | ⟨hbc1, hbc2⟩
        · exact Or.inl (lt_trans hbc hab)
        · exact Or.inl (hbc1 ▸ hab)
      · rcases hbc with hbc | ⟨hbc1, hbc2⟩
        · exact Or.inl (hab1 ▸ hbc)
        · exact Or.inr ⟨hab1.trans hbc1, le_trans hab2 hbc2⟩
    have htotal : ∀ (a b : ContentItem),
        rec_le es need a b || rec_le es need b a := by
      intro a b
      simp only [rec_le, Bool.or_eq_true, decide_eq_true_eq]
      rcases lt_trichotomy (match_score es need a) (match_score es need b) with h | h | h
      · exact Or.inr (Or.inl h)
      · rcases Nat.le_total a.id b.id with hid | hid
        · exact Or.inl (Or.inr ⟨h, hid⟩)
        · exact Or.inr (Or.inr ⟨h.symm, hid⟩)
      · exact Or.inl (Or.inl h)
    have hsorted := List.sorted_mergeSort htrans htotal
      (catalog.filter (fun it =>
        decide (it.id ∉ excluded ∧ min_score ≤ match_score es need it)))
    have hpair := List.Pairwise.sublist (List.take_sublist K _) hsorted
    exact hpair.imp (fun h => of_decide_eq_true h)

/-- Witness for C5: on a two-item catalog with one excluded id, the surviving
item is not the excluded one. -/
theorem recommend_spec_w :
    (⟨1, Category.mindfulness, 0, 0, 0, 0⟩ : ContentItem).id ∉ [5] :=
  (recommend_spec 3 (-10) [⟨1, Category.mindfulness, 0, 0, 0, 0⟩,
      ⟨5, Category.academic, 0, 0, 0, 0⟩] EmotionalState.neutral none [5]).2.1
    ⟨1, Category.mindfulness, 0, 0, 0, 0⟩
    (by
      unfold recommend
      have h1 : List.filter (fun it =>
            decide (it.id ∉ [5] ∧ (-10 : ℚ) ≤ match_score EmotionalState.neutral none it))
          [⟨1, Category.mindfulness, 0, 0, 0, 0⟩, ⟨5, Category.academic, 0, 0, 0, 0⟩]
          = [⟨1, Category.mindfulness, 0, 0, 0, 0⟩] := by
        simp only [List.filter_cons, List.filter_nil, decide_eq_true_eq]
        norm_num [match_score, ContentItem.midValence, ContentItem.midArousal,
          EmotionalState.neutral]
        rw [if_neg (show ¬((none : Option Category) = some Category.mindfulness) by simp)]
        norm_num
      rw [h1, List.mergeSort_singleton]
      simp)

/-- C8: `createMessage` answers 400 with an error body and writes no row when
the message or the userId field is missing or falsy; when both are truthy it
writes exactly one row — whose parentId is null when the field is absent —
and answers 201 carrying the new row. -/
theorem createMessage_spec (store : List MessageRecord) (nextId : Int)
    (body : CreateBody) :
    (¬(truthyString body.message = true ∧ truthyInt body.userId = true) →
      (createMessage store nextId body).1 = store ∧
      (createMessage store nextId body).2
          = CreateResponse.err 400 "El mensaje y el userId son obligatorios") ∧
    (truthyString body.message = true → truthyInt body.userId = true →
      ∃ r : MessageRecord,
        (createMessage store nextId body).1 = store ++ [r] ∧
        (createMessage store nextId body).2 = CreateResponse.created 201 r ∧
        (body.parentId = none → r.parentId = none)) := by
  constructor
  · intro h
    have hcond : (!truthyString body.message || !truthyInt body.userId) = true := by
      by_cases h1 : truthyString body.message = true <;>
        by_cases h2 : truthyInt body.userId = true <;> simp_all
    constructor <;> simp [createMessage, hcond]
  · intro h1 h2
    refine ⟨{ id := nextId
              message := body.message.getD ""
              userId := body.userId.getD 0
              parentId := if truthyInt body.parentId then body.parentId else none },
      ?_, ?_, ?_⟩
    · simp [createMessage, h1, h2]
    · simp [createMessage, h1, h2]
    · intro hp
      simp [hp, truthyInt]

/-- Witness for C8: a well-formed body with no parentId creates one row with
a null parentId and a 201 response. -/
theorem createMessage_spec_w :
    ∃ r : MessageRecord,
      (createMessage [] 1 ⟨some "hola", some 1, none⟩).1 = [] ++ [r] ∧
      (createMessage [] 1 ⟨some "hola", some 1, none⟩).2
          = CreateResponse.created 201 r ∧
      ((⟨some "hola", some 1, none⟩ : CreateBody).parentId = none →
        r.parentId = none) :=
  (createMessage_spec [] 1 ⟨some "hola", some 1, none⟩).2 (by decide) (by decide)

/-- C9: `getMessages` returns exactly the thread roots (parentId null) as
top-level entries; every nested first-level reply has the root as parent and
every nested second-level reply has the first-level reply as parent; and each
reply of a returned root is indeed found nested under it rather than at top
level. -/
theorem getMessages_spec (store : List MessageRecord) :
    (∀ n ∈ getMessages store, n.record.parentId = none) ∧
    (∀ n ∈ getMessages store, ∀ r ∈ n.replies,
      r.record.parentId = some n.record.id) ∧
    (∀ n ∈ getMessages store, ∀ r ∈ n.replies, ∀ q ∈ r.replies,
      q.parentId = some r.record.id) ∧
    (∀ root ∈ store, root.parentId = none →
      ∀ m ∈ store, m.parentId = some root.id →
        ∃ n ∈ getMessages store, n.record = root ∧
          ∃ r ∈ n.replies, r.record = m) := by
  refine ⟨?_, ?_, ?_, ?_⟩
  · intro n hn
    simp only [getMessages, List.mem_map, List.mem_filter] at hn
    obtain ⟨root, ⟨_, hroot⟩, rfl⟩ := hn
    simpa using hroot
  · intro n hn r hr
    simp only [getMessages, List.mem_map, List.mem_filter] at hn
    obtain ⟨root, ⟨_, _⟩, rfl⟩ := hn
    simp only [List.mem_map] at hr
    obtain ⟨c, hc, rfl⟩ := hr
    simp only [childrenOf, List.mem_filter] at hc
    simpa using hc.2
  · intro n hn r hr q hq
    simp only [getMessages, List.mem_map, List.mem_filter] at hn
    obtain ⟨root, ⟨_, _⟩, rfl⟩ := hn
    simp only [List.mem_map] at hr
    obtain ⟨c, _, rfl⟩ := hr
    simp only [childrenOf, List.mem_filter] at hq
    simpa using hq.2
  · intro root hroot hrootnil m hm hmp
    refine ⟨⟨root, (childrenOf store root.id).map
      (fun r => ⟨r, childrenOf store r.id⟩)⟩, ?_, rfl, ?_⟩
    · simp only [getMessages, List.mem_map]
      exact ⟨root, List.mem_filter.mpr ⟨hroot, by simp [hrootnil]⟩, rfl⟩
    · refine ⟨⟨m, childrenOf store m.id⟩, ?_, rfl⟩
      simp only [List.mem_map]
      exact ⟨m, List.mem_filter.mpr ⟨hm, by simp [hmp]⟩, rfl⟩

/-- Witness for C9: with one root and one reply, the reply is nested under
the root in the returned structure. -/
theorem getMessages_spec_w :
    ∃ n ∈ getMessages [⟨1, "raiz", 1, none⟩, ⟨2, "respuesta", 1, some 1⟩],
      n.record = ⟨1, "raiz", 1, none⟩ ∧
      ∃ r ∈ n.replies, r.record = ⟨2, "respuesta", 1, some 1⟩ :=
  (getMessages_spec [⟨1, "raiz", 1, none⟩, ⟨2, "respuesta", 1, some 1⟩]).2.2.2
    ⟨1, "raiz", 1, none⟩ (by simp) rfl
    ⟨2, "respuesta", 1, some 1⟩ (by simp) rfl

/-- C10: a reply that is empty or all whitespace (trim gives the empty
string) triggers no HTTP POST and leaves the component state unchanged; a
non-blank reply posts the text with the post id as parent_id and clears the
reply field. -/
theorem handleReply_spec (st : PostComponentState) (postId : Int) :
    (jsTrim st.reply = "" ↔ ∀ c ∈ st.reply.data, isJsWhitespace c = true) ∧
    (jsTrim st.reply = "" → handleReply st postId = (st, none)) ∧
    (jsTrim st.reply ≠ "" →
      handleReply st postId
        = (⟨""⟩, some ⟨"http://localhost:3001/posts", st.reply, postId⟩)) := by
  refine ⟨?_, ?_, ?_⟩
  · rw [String.ext_iff]
    show (((st.reply.data.dropWhile isJsWhitespace).reverse.dropWhile
        isJsWhitespace).reverse = ("" : String).data) ↔ _
    rw [show ("" : String).data = [] from rfl, List.reverse_eq_nil_iff,
      List.dropWhile_eq_nil_iff]
    constructor
    · intro h c hc
      have hnil : st.reply.data.dropWhile isJsWhitespace = [] := by
        cases hd : st.reply.data.dropWhile isJsWhitespace with
        | nil => rfl
        | cons x xs =>
            exfalso
            have hx : isJsWhitespace ((st.reply.data.dropWhile
                isJsWhitespace).head (by simp [hd])) = false :=
              List.head_dropWhile_not isJsWhitespace st.reply.data _
            have hxmem : (st.reply.data.dropWhile isJsWhitespace).head
                (by simp [hd]) ∈ (st.reply.data.dropWhile isJsWhitespace).reverse := by
              rw [List.mem_reverse]
              exact List.head_mem _
            have := h _ hxmem
            rw [hx] at this
            exact Bool.false_ne_true this
      have hall : st.reply.data = st.reply.data.takeWhile isJsWhitespace := by
        conv_lhs => rw [← List.takeWhile_append_dropWhile
          (p := isJsWhitespace) (l := st.reply.data)]
        rw [hnil, List.append_nil]
      rw [hall] at hc
      exact List.mem_takeWhile_imp hc
    · intro h c hc
      rw [List.mem_reverse] at hc
      exact h c ((List.dropWhile_sublist isJsWhitespace).subset hc)
  · intro h
    simp only [handleReply, beq_iff_eq]
    rw [if_pos h]
  · intro h
    simp only [handleReply, beq_iff_eq]
    rw [if_neg h]

/-- Witness for C10: a whitespace-only reply field is left untouched and no
request is sent. -/
theorem handleReply_spec_w :
    handleReply ⟨"   "⟩ 7 = (⟨"   "⟩, none) :=
  (handleReply_spec ⟨"   "⟩ 7).2.1 (by decide)

end Emilia

